import Mathlib

/-!
Shallow embedding of the StarscapeStudio media-export core
(`src-tauri/src/edit_plan.rs`, `src-tauri/src/jobs.rs`,
`src-tauri/src/record.rs`, `src-tauri/src/cache.rs`, `src-tauri/src/lib.rs`).

External effects (subprocess invocations, filesystem writes, progress-event
emission) are modelled by an explicit environment of oracles plus a trace of
the actions the pipeline performs, so that control flow, error propagation
and event ordering can be stated and proved.  Machine integers (`u64`, `u32`)
are modelled as `Nat`; every subtraction performed by the code happens only
when the subtrahend is smaller, so truncated subtraction agrees.
-/

/-- One placed clip, `SeqClip` of `edit_plan.rs`. -/
structure SeqClip where
  src_path : String
  in_ms : Nat
  out_ms : Nat
  start_ms : Nat
  end_ms : Nat
deriving DecidableEq, Repr

/-- Validated plan, `EditPlan` of `edit_plan.rs`. -/
structure EditPlan where
  id : String
  main_track : List SeqClip
  overlay_track : List SeqClip
deriving DecidableEq, Repr

/-- Parsed asset entry, `ProjectAsset` of `edit_plan.rs` (fields the
builder reads). -/
structure ProjectAsset where
  id : String
  kind : String
  name : String
  src : String
deriving DecidableEq, Repr

/-- Parsed clip entry, `ProjectClip` of `edit_plan.rs`. -/
structure ProjectClip where
  id : String
  asset_id : String
  track_id : String
  start_ms : Nat
  end_ms : Nat
  in_ms : Nat
  out_ms : Nat
deriving DecidableEq, Repr

/-- Parsed track entry, `ProjectTrack` of `edit_plan.rs`. -/
structure ProjectTrack where
  id : String
  role : String
  clip_order : List String
deriving DecidableEq, Repr

/-- Parsed project description, `ProjectJson` of `edit_plan.rs`.  The three
`HashMap`s are modelled as association lists; iteration order over `tracks`
is the list order (the source's hash-map iteration order is arbitrary, and
every theorem below holds for every order). -/
structure ProjectJson where
  id : String
  assets : List (String × ProjectAsset)
  clips : List (String × ProjectClip)
  tracks : List (String × ProjectTrack)
deriving DecidableEq, Repr

/-- The `file://` normalization inside `build_plan`: Rust
`starts_with("file://")` / `strip_prefix("file://")`, expressed via the
equivalent 7-character take/drop. -/
def normalizeSrc (src : String) : String :=
  if src.take 7 = "file://" then src.drop 7 else src

/-- The inner loop of `build_plan` over one track's `clip_order`
(edit_plan.rs lines 74-103): unresolvable clip ids and unresolvable asset
references are skipped, a resolvable clip with `out_ms <= in_ms` aborts with
an identifier-qualified error, and every resolved clip is routed into `main`
or `overlay` by the owning track's role. -/
def processClipIds (assets : List (String × ProjectAsset))
    (clips : List (String × ProjectClip)) (role : String) :
    List String → List SeqClip → List SeqClip →
    Except String (List SeqClip × List SeqClip)
  | [], main, overlay => .ok (main, overlay)
  | cid :: rest, main, overlay =>
    match clips.lookup cid with
    | none => processClipIds assets clips role rest main overlay
    | some clip =>
      match assets.lookup clip.asset_id with
      | none => processClipIds assets clips role rest main overlay
      | some asset =>
        if clip.out_ms ≤ clip.in_ms then
          Except.error ("clip " ++ cid ++ " out <= in")
        else
          let seq : SeqClip :=
            ⟨normalizeSrc asset.src, clip.in_ms, clip.out_ms,
              clip.start_ms, clip.end_ms⟩
          if role = "main" then
            processClipIds assets clips role rest (main ++ [seq]) overlay
          else
            processClipIds assets clips role rest main (overlay ++ [seq])

/-- The outer loop of `build_plan` over the `tracks` map
(edit_plan.rs line 73). -/
def processTracks (assets : List (String × ProjectAsset))
    (clips : List (String × ProjectClip)) :
    List (String × ProjectTrack) → List SeqClip → List SeqClip →
    Except String (List SeqClip × List SeqClip)
  | [], main, overlay => .ok (main, overlay)
  | (_, track) :: rest, main, overlay =>
    match processClipIds assets clips track.role track.clip_order main overlay with
    | .error e => .error e
    | .ok (main2, overlay2) => processTracks assets clips rest main2 overlay2

/-- `main.sort_by_key(|c| c.start_ms)` (edit_plan.rs line 107), modelled by a
stable comparison sort on the `start_ms` key. -/
def sortClips (l : List SeqClip) : List SeqClip :=
  l.insertionSort (fun a b => a.start_ms ≤ b.start_ms)

/-- The overlap scan of `build_plan` (edit_plan.rs lines 108-112): `true`
iff every consecutive pair satisfies `end[i-1] <= start[i]`. -/
def checkNoOverlap : List SeqClip → Bool
  | [] => true
  | [_] => true
  | a :: b :: rest => decide (a.end_ms ≤ b.start_ms) && checkNoOverlap (b :: rest)

/-- `build_plan` of `edit_plan.rs`, from the already-parsed description (the
serde JSON layer is an external collaborator; a parse failure is a
`PlanError` before any of the logic modelled here runs). -/
def build_plan (p : ProjectJson) : Except String EditPlan :=
  match processTracks p.assets p.clips p.tracks [] [] with
  | .error e => .error e
  | .ok (main, overlay) =>
    let sorted := sortClips main
    if checkNoOverlap sorted then
      .ok ⟨p.id, sorted, overlay⟩
    else
      .error ("overlapping clips on main track (MVP disallows)")

/-- `ExportSettings` of `lib.rs`. -/
structure ExportSettings where
  format : String
  width : Option Nat
  height : Option Nat
  fps : Option Nat
  bitrate : Option Nat
deriving DecidableEq, Repr

/-- `ProgressEvent` of `lib.rs`. -/
structure ProgressEvent where
  phase : String
  current : Nat
  total : Nat
  message : String
deriving DecidableEq, Repr

/-- Rust `format!("{:03}", n)`. -/
def pad3 (n : Nat) : String :=
  let s := toString n
  if s.length < 3 then String.mk (List.replicate (3 - s.length) '0') ++ s else s

/-- Rust `format!("{:04}", n)`. -/
def pad4 (n : Nat) : String :=
  let s := toString n
  if s.length < 4 then String.mk (List.replicate (4 - s.length) '0') ++ s else s

/-- Rust `format!("{}.{:03}", ms / 1000, ms % 1000)` (jobs.rs lines 29-31). -/
def msString (ms : Nat) : String :=
  toString (ms / 1000) ++ "." ++ pad3 (ms % 1000)

/-- The two cache directories the export pipeline derives paths under
(`CacheDirs` of `cache.rs`; the previews/captures directories are not used
by the export job). -/
structure CacheDirs where
  segments : String
  renders : String
deriving DecidableEq, Repr

/-- `CacheDirs::segment_path` (cache.rs lines 42-44). -/
def CacheDirs.segment_path (c : CacheDirs) (index : Nat) : String :=
  c.segments ++ "/segment_" ++ pad4 index ++ ".mp4"

/-- `CacheDirs::concat_list_path` (cache.rs lines 38-40). -/
def CacheDirs.concat_list_path (c : CacheDirs) (plan : EditPlan) : String :=
  c.segments ++ "/" ++ plan.id ++ "_concat.txt"

/-- `CacheDirs::render_output_path` (cache.rs lines 46-53); the wall-clock
timestamp is passed in explicitly. -/
def CacheDirs.render_output_path (c : CacheDirs) (plan : EditPlan) (ts : Nat)
    (ext : String) : String :=
  c.renders ++ "/" ++ plan.id ++ "_" ++ toString ts ++ "." ++ ext

/-- Argument list of the primary (stream-copy) trim invocation
(jobs.rs lines 34-40). -/
def trimArgs (clip : SeqClip) (seg_path : String) : List String :=
  ["-ss", msString clip.in_ms, "-i", clip.src_path,
   "-t", msString (clip.out_ms - clip.in_ms), "-c", "copy", seg_path]

/-- Argument list of the fallback (H.264/AAC transcode) trim invocation
(jobs.rs lines 44-54). -/
def trimFallbackArgs (clip : SeqClip) (seg_path : String) : List String :=
  ["-ss", msString clip.in_ms, "-i", clip.src_path,
   "-t", msString (clip.out_ms - clip.in_ms),
   "-c:v", "libx264", "-preset", "veryfast", "-crf", "23",
   "-c:a", "aac", "-b:a", "192k", seg_path]

/-- Argument list of the primary (stream-copy) concat invocation
(jobs.rs lines 76-84). -/
def concatArgs (concat_path out_path : String) : List String :=
  ["-f", "concat", "-safe", "0", "-i", concat_path, "-c", "copy", out_path]

/-- Argument list of the fallback (re-encode) concat invocation
(jobs.rs lines 87-98). -/
def concatFallbackArgs (concat_path out_path : String) : List String :=
  ["-f", "concat", "-safe", "0", "-i", concat_path,
   "-c:v", "libx264", "-preset", "veryfast", "-crf", "23",
   "-c:a", "aac", "-b:a", "192k", out_path]

/-- Outcome of one `Command::output()` call: either the process could not be
spawned at all (Rust `Err` from `.output()`), or it ran and exited with a
success flag and captured stderr. -/
inductive CmdOutcome where
  | spawnErr (msg : String)
  | exited (success : Bool) (stderr : String)
deriving DecidableEq, Repr

/-- Environment of external effects for one export run: the media tool
(keyed by its full argument list), manifest-file creation + writing, and
the size lookup `fs::metadata(..).map(|m| m.len())`. -/
structure ExportEnv where
  run : List String → CmdOutcome
  createWrite : String → String → Except String Unit
  fileLen : String → Option Nat

/-- One observable action of the export pipeline, in order. -/
inductive TraceItem where
  | event (e : ProgressEvent)
  | call (args : List String)
  | fileWrite (path : String) (content : String)
deriving DecidableEq, Repr

/-- The lossless-first / fallback-transcode step shared by the segment and
finalize phases (jobs.rs lines 34-59 and 76-102): run the primary argument
list; on non-zero exit run the fallback argument list once; a spawn failure
of either command propagates with the phase's message prefix; when both
exit non-zero the error is `"ffmpeg error: "` plus the fallback's stderr. -/
def attemptWithFallback (run : List String → CmdOutcome)
    (primaryArgs fallbackArgs : List String)
    (primarySpawnMsg fallbackSpawnMsg : String) :
    List TraceItem × Except String Unit :=
  match run primaryArgs with
  | .spawnErr e => ([.call primaryArgs], .error (primarySpawnMsg ++ e))
  | .exited true _ => ([.call primaryArgs], .ok ())
  | .exited false _ =>
    match run fallbackArgs with
    | .spawnErr e =>
      ([.call primaryArgs, .call fallbackArgs], .error (fallbackSpawnMsg ++ e))
    | .exited true _ =>
      ([.call primaryArgs, .call fallbackArgs], .ok ())
    | .exited false st =>
      ([.call primaryArgs, .call fallbackArgs], .error ("ffmpeg error: " ++ st))

/-- One `writeln!(file, "file '{}'", seg)` manifest line (jobs.rs line 68);
`\x27` is the ASCII apostrophe. -/
def manifestLine (seg : String) : String :=
  "file \x27" ++ seg ++ "\x27\n"

/-- Full concat-manifest content, in segment production order. -/
def manifestContent (segs : List String) : String :=
  String.join (segs.map manifestLine)

/-- The segment phase of `spawn_export_job` (jobs.rs lines 25-62): for each
remaining clip, emit one progress event (current = clips completed so far,
which equals the clip index), then attempt the trim with fallback; on
failure stop with that error, otherwise record the segment path and
continue. -/
def segmentLoop (env : ExportEnv) (cache : CacheDirs) (total : Nat) :
    List SeqClip → Nat → List TraceItem × Except String (List String)
  | [], _ => ([], .ok [])
  | clip :: rest, idx =>
    let ev := TraceItem.event
      ⟨"segment", idx, total, "Trimming clip " ++ toString idx⟩
    let seg_path := cache.segment_path idx
    let step := attemptWithFallback env.run (trimArgs clip seg_path)
      (trimFallbackArgs clip seg_path)
      ("ffmpeg trim failed: ") ("ffmpeg transcode failed: ")
    match step.2 with
    | .error e => (ev :: step.1, .error e)
    | .ok _ =>
      let next := segmentLoop env cache total rest (idx + 1)
      (ev :: step.1 ++ next.1, next.2.map (fun ps => seg_path :: ps))

/-- `spawn_export_job` of `jobs.rs`: segment phase, concat phase (one event,
then the manifest write), finalize phase (one event, then stream-copy
concat with re-encode fallback), returning
`("file://" ++ rendered, durationMs, sizeBytes)` on success together with
the full action trace. -/
def spawn_export_job (env : ExportEnv) (plan : EditPlan)
    (settings : ExportSettings) (cache : CacheDirs) (ts : Nat) :
    List TraceItem × Except String (String × Nat × Nat) :=
  let total := plan.main_track.length + 2
  let seg := segmentLoop env cache total plan.main_track 0
  match seg.2 with
  | .error e => (seg.1, .error e)
  | .ok segment_paths =>
    let concatEv := TraceItem.event
      ⟨"concat", plan.main_track.length, total, "Concatenating"⟩
    let concat_path := cache.concat_list_path plan
    let content := manifestContent segment_paths
    match env.createWrite concat_path content with
    | .error e => (seg.1 ++ [concatEv], .error e)
    | .ok _ =>
      let ext := if settings.format = "mov" then "mov" else "mp4"
      let out_path := cache.render_output_path plan ts ext
      let finEv := TraceItem.event
        ⟨"finalize", plan.main_track.length + 1, total, "Writing output"⟩
      let fin := attemptWithFallback env.run (concatArgs concat_path out_path)
        (concatFallbackArgs concat_path out_path)
        ("ffmpeg concat failed: ") ("ffmpeg encode failed: ")
      match fin.2 with
      | .error e =>
        (seg.1 ++ [concatEv, .fileWrite concat_path content, finEv] ++ fin.1,
         .error e)
      | .ok _ =>
        let size_bytes := (env.fileLen out_path).getD 0
        let duration_ms := (plan.main_track.map (fun c => c.out_ms - c.in_ms)).sum
        (seg.1 ++ [concatEv, .fileWrite concat_path content, finEv] ++ fin.1,
         .ok ("file://" ++ out_path, duration_ms, size_bytes))

/-- `export_project` of `lib.rs`: build the plan, then run the export job;
a plan error aborts before any subprocess is spawned (empty trace). -/
def export_project (env : ExportEnv) (p : ProjectJson)
    (settings : ExportSettings) (cache : CacheDirs) (ts : Nat) :
    List TraceItem × Except String (String × Nat × Nat) :=
  match build_plan p with
  | .error e => ([], .error e)
  | .ok plan => spawn_export_job env plan settings cache ts

/-- Progress events of a trace, in emission order. -/
def eventsOf (tr : List TraceItem) : List ProgressEvent :=
  tr.filterMap (fun item =>
    match item with
    | .event e => some e
    | _ => none)

/-- Handle of a spawned capture process; `stdin_piped` records whether
`child.stdin.take()` yields a channel (the source always spawns with
`Stdio::piped()`). -/
structure ChildHandle where
  stdin_piped : Bool
deriving DecidableEq, Repr

/-- Observable interactions with a capture child process. -/
inductive ProcAction where
  | writeStdin (data : String)
  | wait
  | kill
deriving DecidableEq, Repr

/-- `HashMap::remove` on the session registry, modelled on the association
list: delete the binding of the given key. -/
def removeEntry : List (String × ChildHandle × String) → String →
    List (String × ChildHandle × String)
  | [], _ => []
  | e :: rest, id => if e.1 = id then rest else e :: removeEntry rest id

/-- `stop_screen_record` of `record.rs` (lines 110-121): returns the new
registry, the actions performed on the child process, and the result. -/
def stop_screen_record (procs : List (String × ChildHandle × String))
    (recording_id : String) :
    List (String × ChildHandle × String) × List ProcAction × Except String String :=
  match procs.lookup recording_id with
  | some entry =>
    (removeEntry procs recording_id,
     (if entry.1.stdin_piped then [ProcAction.writeStdin ("q\n")] else [])
       ++ [ProcAction.wait],
     .ok entry.2)
  | none => (procs, [], .error ("recording id not found"))

/-- Device-selector resolution of `start_screen_record` (record.rs lines
83-91): `display_index` defaults to 1, `audio_index` defaults to 0, and a
non-positive audio index yields the `none` audio component. -/
def resolve_input_device (display_index audio_index : Option Nat) : String :=
  let display := display_index.getD 1
  let audio := audio_index.getD 0
  if audio > 0 then
    toString display ++ ":" ++ toString audio
  else
    toString display ++ ":none"

/-- Specification-side description of the progress-event stream of one
successful export over a main track of length `n`: one event per clip with
`current` = clips completed so far, then one concat and one finalize event,
all with `total = n + 2`. -/
def expectedEvents (n : Nat) : List ProgressEvent :=
  (List.range n).map
    (fun i => ⟨"segment", i, n + 2, "Trimming clip " ++ toString i⟩)
  ++ [⟨"concat", n, n + 2, "Concatenating"⟩,
      ⟨"finalize", n + 1, n + 2, "Writing output"⟩]

/-- A clip with an invalid trim window (`out_ms <= in_ms`). -/
def badClip : ProjectClip := ⟨"c1", "a1", "t1", 0, 1000, 500, 200⟩

/-- A description containing `badClip` in its clips map while no track
references it. -/
def badTrimDesc : ProjectJson := ⟨"p2", [], [("c1", badClip)], []⟩

/-- A clip with an invalid trim window whose asset reference is dangling. -/
def badAssetClip : ProjectClip := ⟨"c9", "missing", "t9", 0, 1000, 500, 200⟩

/-- A description whose only clip has `out_ms <= in_ms`, is referenced by a
main track, and points at an asset absent from the assets map. -/
def danglingAssetDesc : ProjectJson :=
  ⟨"p9", [], [("c9", badAssetClip)], [("t9", ⟨"t9", "main", ["c9"]⟩)]⟩

/-- Environment in which every tool invocation and file operation
succeeds. -/
def okEnv : ExportEnv where
  run := fun _ => .exited true ""
  createWrite := fun _ _ => .ok ()
  fileLen := fun _ => some 42

/-- A tool oracle failing both the primary and the fallback argument list of
a phase, with distinct diagnostics. -/
def run0 : List String → CmdOutcome
  | ["p"] => .exited false "pboom"
  | ["f"] => .exited false "fboom"
  | _ => .exited true ""

/-- A concrete one-clip plan used to instantiate export theorems. -/
def witnessPlan : EditPlan := ⟨"p", [⟨"/a.mp4", 100, 1100, 0, 1000⟩], []⟩

/-- A concrete plan with an empty main track. -/
def emptyPlan : EditPlan := ⟨"pe", [], [⟨"/o.mp4", 0, 5, 0, 5⟩]⟩

/-- Concrete export settings. -/
def settings0 : ExportSettings := ⟨"mp4", none, none, none, none⟩

/-- Concrete cache directories. -/
def cache0 : CacheDirs := ⟨"/seg", "/ren"⟩

/-- A concrete two-clip project description whose main-track clips are
given out of timeline order. -/
def proj1 : ProjectJson :=
  ⟨"p1",
   [("a1", ⟨"a1", "video", "A", "file:///tmp/a.mp4"⟩)],
   [("c1", ⟨"c1", "a1", "t1", 1000, 2500, 0, 1500⟩),
    ("c2", ⟨"c2", "a1", "t1", 0, 1000, 100, 1100⟩)],
   [("t1", ⟨"t1", "main", ["c1", "c2"]⟩)]⟩

theorem checkNoOverlap_chain :
    ∀ l : List SeqClip, checkNoOverlap l = true →
      List.Chain' (fun a b => a.end_ms ≤ b.start_ms) l
  | [], _ => List.chain'_nil
  | [_], _ => List.chain'_singleton _
  | a :: b :: rest, h => by
    simp only [checkNoOverlap, Bool.and_eq_true, decide_eq_true_eq] at h
    exact List.chain'_cons.2 ⟨h.1, checkNoOverlap_chain (b :: rest) h.2⟩

theorem sortClips_pairwise (l : List SeqClip) :
    (sortClips l).Pairwise (fun a b => a.start_ms ≤ b.start_ms) := by
  haveI : IsTotal SeqClip (fun a b => a.start_ms ≤ b.start_ms) :=
    ⟨fun a b => Nat.le_total _ _⟩
  haveI : IsTrans SeqClip (fun a b => a.start_ms ≤ b.start_ms) :=
    ⟨fun _ _ _ => Nat.le_trans⟩
  exact List.sorted_insertionSort _ l

theorem mem_sortClips {l : List SeqClip} {a : SeqClip} (h : a ∈ sortClips l) :
    a ∈ l :=
  (List.perm_insertionSort _ l).mem_iff.mp h

/-- C2: for every project description on which `build_plan` succeeds, the
resulting main track is sorted ascending by `start_ms` and consecutive
clips do not overlap (`end_ms` of each clip is at most `start_ms` of the
next); a plan-building error propagates out of `export_project` before any
tool invocation (empty trace); and a description whose resolved main-track
clips overlap after sorting by `start_ms` is rejected with the overlap
`PlanError`. -/
theorem C2_main_track_sorted_nonoverlapping :
    (∀ p plan, build_plan p = .ok plan →
        plan.main_track.Pairwise (fun a b => a.start_ms ≤ b.start_ms) ∧
        List.Chain' (fun a b => a.end_ms ≤ b.start_ms) plan.main_track)
    ∧ (∀ p e, build_plan p = .error e →
        ∀ env settings cache ts,
          export_project env p settings cache ts = ([], .error e))
    ∧ (∀ p main overlay,
        processTracks p.assets p.clips p.tracks [] [] = .ok (main, overlay) →
        checkNoOverlap (sortClips main) = false →
        build_plan p = .error ("overlapping clips on main track (MVP disallows)")) := by
  refine ⟨?_, ?_, ?_⟩
  · intro p plan h
    simp only [build_plan] at h
    split at h
    · exact absurd h (by simp)
    · rename_i main overlay heq
      split at h
      · rename_i hchk
        have hplan : plan = ⟨p.id, sortClips main, overlay⟩ := by
          injection h with h2
          exact h2.symm
        subst hplan
        exact ⟨sortClips_pairwise main, checkNoOverlap_chain _ hchk⟩
      · exact absurd h (by simp)
  · intro p e h env settings cache ts
    simp [export_project, h]
  · intro p main overlay h1 h2
    simp [build_plan, h1, h2]

/-- Closed instantiation of the first part of `C2` on a concrete
two-clip description. -/
theorem C2_witness :
    (⟨"p1", [⟨"/tmp/a.mp4", 100, 1100, 0, 1000⟩, ⟨"/tmp/a.mp4", 0, 1500, 1000, 2500⟩], []⟩ :
      EditPlan).main_track.Pairwise (fun a b => a.start_ms ≤ b.start_ms) ∧
    List.Chain' (fun a b => a.end_ms ≤ b.start_ms)
      (⟨"p1", [⟨"/tmp/a.mp4", 100, 1100, 0, 1000⟩, ⟨"/tmp/a.mp4", 0, 1500, 1000, 2500⟩], []⟩ :
        EditPlan).main_track :=
  C2_main_track_sorted_nonoverlapping.1 proj1 _ rfl

/-- C8: the device selector resolves an omitted `display_index` to the
default display index 1 (the first capturable display in the tool's device
numbering), an omitted or zero `audio_index` to the `none` audio component,
and a positive `audio_index` to a `display:audio` selector. -/
theorem C8_device_selector :
    (resolve_input_device none none = "1:none")
    ∧ (∀ d, resolve_input_device (some d) none = toString d ++ ":none")
    ∧ (∀ d, resolve_input_device (some d) (some 0) = toString d ++ ":none")
    ∧ (∀ d a, 0 < a →
        resolve_input_device (some d) (some a) = toString d ++ ":" ++ toString a)
    ∧ (∀ a, 0 < a →
        resolve_input_device none (some a) = "1:" ++ toString a) := by
  refine ⟨rfl, fun d => rfl, fun d => rfl, ?_, ?_⟩
  · intro d a ha
    simp [resolve_input_device, ha]
  · intro a ha
    show (if a > 0 then toString (1 : Nat) ++ ":" ++ toString a
          else toString (1 : Nat) ++ ":none") = "1:" ++ toString a
    rw [if_pos ha]
    rfl

/-- Closed instantiation of `C8_device_selector` at display 2, audio 3. -/
theorem C8_witness :
    resolve_input_device (some 2) (some 3) = toString 2 ++ ":" ++ toString 3 :=
  C8_device_selector.2.2.2.1 2 3 (by decide)

theorem lookup_removeEntry (procs : List (String × ChildHandle × String))
    (id k : String) (hne : k ≠ id) :
    (removeEntry procs id).lookup k = procs.lookup k := by
  induction procs with
  | nil => rfl
  | cons e rest ih =>
    obtain ⟨ek, ev⟩ := e
    by_cases he : ek = id
    · subst he
      simp only [removeEntry, if_pos rfl, List.lookup]
      have : (k == ek) = false := by simp [hne]
      simp [this]
    · simp only [removeEntry, if_neg he, List.lookup]
      by_cases hk : k = ek
      · subst hk
        simp
      · have : (k == ek) = false := by simp [hk]
        simp [this, ih]

/-- C7: stopping an unregistered session identifier fails with the
session-not-found error and performs no side effects (registry unchanged,
no process interaction); stopping a registered identifier removes exactly
that entry (every other key's binding is unchanged), sends the graceful
`q` stop signal over the child's stdin channel, waits for exit, never
kills, and returns the recorded output path. -/
theorem C7_stop_session :
    (∀ procs id, procs.lookup id = none →
        stop_screen_record procs id = (procs, [], .error ("recording id not found")))
    ∧ (∀ procs id child out, procs.lookup id = some (child, out) →
        (stop_screen_record procs id).2.2 = .ok out
        ∧ (stop_screen_record procs id).1 = removeEntry procs id
        ∧ (∀ k, k ≠ id →
            ((stop_screen_record procs id).1).lookup k = procs.lookup k)
        ∧ ProcAction.kill ∉ (stop_screen_record procs id).2.1
        ∧ (child.stdin_piped = true →
            (stop_screen_record procs id).2.1 =
              [ProcAction.writeStdin ("q\n"), ProcAction.wait])) := by
  constructor
  · intro procs id h
    simp [stop_screen_record, h]
  · intro procs id child out h
    refine ⟨?_, ?_, ?_, ?_, ?_⟩
    · simp [stop_screen_record, h]
    · simp [stop_screen_record, h]
    · intro k hk
      simp only [stop_screen_record, h]
      exact lookup_removeEntry procs id k hk
    · simp only [stop_screen_record, h]
      cases hpiped : child.stdin_piped <;> simp [hpiped]
    · intro hpiped
      simp [stop_screen_record, h, hpiped]

/-- Closed instantiation of the registered branch of `C7_stop_session`. -/
theorem C7_witness :
    (stop_screen_record [("r1", ⟨true⟩, "/cap/capture_5.mp4")] "r1").2.2 =
      .ok "/cap/capture_5.mp4" :=
  (C7_stop_session.2 [("r1", ⟨true⟩, "/cap/capture_5.mp4")] "r1" ⟨true⟩
    "/cap/capture_5.mp4" rfl).1

/-- C1: whenever the export pipeline returns successfully — whatever mix of
stream-copy and fallback-encode outcomes the tool oracle produced, and
whatever the produced file's size lookup reports — the returned duration is
the exact sum of `out_ms - in_ms` over the plan's main track. -/
theorem C1_export_duration_planned_sum
    (env : ExportEnv) (plan : EditPlan) (settings : ExportSettings)
    (cache : CacheDirs) (ts : Nat) (path : String) (dur size : Nat)
    (h : (spawn_export_job env plan settings cache ts).2 = .ok (path, dur, size)) :
    dur = (plan.main_track.map (fun c => c.out_ms - c.in_ms)).sum := by
  simp only [spawn_export_job] at h
  split at h
  · simp at h
  · split at h
    · simp at h
    · split at h
      · simp at h
      · simp only [Except.ok.injEq, Prod.mk.injEq] at h
        exact h.2.1.symm

/-- Closed instantiation of `C1_export_duration_planned_sum` on a concrete
successful one-clip export. -/
theorem C1_witness :
    1000 = (witnessPlan.main_track.map (fun c => c.out_ms - c.in_ms)).sum :=
  C1_export_duration_planned_sum okEnv witnessPlan settings0 cache0 7
    ("file://" ++ cache0.render_output_path witnessPlan 7 "mp4") 1000 42 rfl

/-- C10: a successful export returns the render output path prefixed with
the `file://` scheme (never a bare filesystem path), while `build_plan`
strips a `file://` scheme from input source locators. -/
theorem C10_export_path_scheme :
    (∀ env plan settings cache ts path dur size,
        (spawn_export_job env plan settings cache ts).2 = .ok (path, dur, size) →
        path = "file://" ++
          cache.render_output_path plan ts
            (if settings.format = "mov" then "mov" else "mp4")
        ∧ ∃ rest, path = "file://" ++ rest)
    ∧ (∀ src, src.take 7 = "file://" → normalizeSrc src = src.drop 7) := by
  constructor
  · intro env plan settings cache ts path dur size h
    simp only [spawn_export_job] at h
    split at h
    · simp at h
    · split at h
      · simp at h
      · split at h
        · simp at h
        · simp only [Except.ok.injEq, Prod.mk.injEq] at h
          exact ⟨h.1.symm, _, h.1.symm⟩
  · intro src h
    simp [normalizeSrc, h]

/-- Closed instantiation of `C10_export_path_scheme` on a concrete
successful export. -/
theorem C10_witness :
    ("file://" ++ cache0.render_output_path witnessPlan 7 "mp4" : String) =
      "file://" ++ cache0.render_output_path witnessPlan 7
        (if settings0.format = "mov" then "mov" else "mp4") :=
  (C10_export_path_scheme.1 okEnv witnessPlan settings0 cache0 7
    ("file://" ++ cache0.render_output_path witnessPlan 7 "mp4") 1000 42 rfl).1

/-- C4: in the lossless-first step used by both the per-segment trim phase
and the finalize concat phase of `spawn_export_job`, a primary invocation
that exits non-zero triggers exactly one fallback invocation and nothing
further (the invocation trace is exactly primary-then-fallback); the step
fails only when the fallback also fails, and the reported error carries the
fallback invocation's stderr while the primary's diagnostic is discarded;
a primary success performs no fallback at all. -/
theorem C4_single_fallback (run : List String → CmdOutcome)
    (p f : List String) (pm fm : String) :
    (∀ st, run p = .exited true st →
        attemptWithFallback run p f pm fm = ([.call p], .ok ()))
    ∧ (∀ st, run p = .exited false st →
        (attemptWithFallback run p f pm fm).1 = [.call p, .call f]
        ∧ (∀ st2, run f = .exited true st2 →
            (attemptWithFallback run p f pm fm).2 = .ok ())
        ∧ (∀ e2, run f = .exited false e2 →
            (attemptWithFallback run p f pm fm).2 =
              .error ("ffmpeg error: " ++ e2))) := by
  constructor
  · intro st h
    simp [attemptWithFallback, h]
  · intro st h
    refine ⟨?_, ?_, ?_⟩
    · simp only [attemptWithFallback, h]
      cases hf : run f with
      | spawnErr e => simp
      | exited s st2 => cases s <;> simp
    · intro st2 hf
      simp [attemptWithFallback, h, hf]
    · intro e2 hf
      simp [attemptWithFallback, h, hf]

/-- Closed instantiation of `C4_single_fallback`: with both attempts
failing, the step reports the fallback's stderr. -/
theorem C4_witness :
    (attemptWithFallback run0 ["p"] ["f"] "x: " "y: ").2 =
      .error ("ffmpeg error: " ++ "fboom") :=
  ((C4_single_fallback run0 ["p"] ["f"] "x: " "y: ").2 "pboom" rfl).2.2 "fboom" rfl

theorem eventsOf_append (a b : List TraceItem) :
    eventsOf (a ++ b) = eventsOf a ++ eventsOf b := by
  simp [eventsOf]

theorem eventsOf_attemptWithFallback (run : List String → CmdOutcome)
    (p f : List String) (pm fm : String) :
    eventsOf (attemptWithFallback run p f pm fm).1 = [] := by
  cases hp : run p with
  | spawnErr e => simp [attemptWithFallback, hp, eventsOf]
  | exited s st =>
    cases s with
    | true => simp [attemptWithFallback, hp, eventsOf]
    | false =>
      cases hf : run f with
      | spawnErr e => simp [attemptWithFallback, hp, hf, eventsOf]
      | exited s2 st2 => cases s2 <;> simp [attemptWithFallback, hp, hf, eventsOf]


theorem eventsOf_nil : eventsOf [] = [] := rfl

theorem eventsOf_cons_event (e : ProgressEvent) (tr : List TraceItem) :
    eventsOf (.event e :: tr) = e :: eventsOf tr := by
  simp [eventsOf]

theorem eventsOf_cons_fileWrite (p c : String) (tr : List TraceItem) :
    eventsOf (.fileWrite p c :: tr) = eventsOf tr := by
  simp [eventsOf]

theorem segmentLoop_ok_events (env : ExportEnv) (cache : CacheDirs) (total : Nat) :
    ∀ (clips : List SeqClip) (idx : Nat) (ps : List String),
      (segmentLoop env cache total clips idx).2 = .ok ps →
      eventsOf (segmentLoop env cache total clips idx).1 =
        (List.range' idx clips.length).map
          (fun i => ⟨"segment", i, total, "Trimming clip " ++ toString i⟩)
  | [], idx, ps, _ => by simp [segmentLoop, eventsOf, List.range']
  | clip :: rest, idx, ps, h => by
    simp only [segmentLoop] at h ⊢
    cases hstep : (attemptWithFallback env.run
        (trimArgs clip (cache.segment_path idx))
        (trimFallbackArgs clip (cache.segment_path idx))
        ("ffmpeg trim failed: ") ("ffmpeg transcode failed: ")).2 with
    | error e => simp [hstep] at h
    | ok u =>
      simp only [hstep] at h ⊢
      cases hnext : (segmentLoop env cache total rest (idx + 1)).2 with
      | error e => simp [hnext, Except.map] at h
      | ok ps2 =>
        have ih := segmentLoop_ok_events env cache total rest (idx + 1) ps2 hnext
        simp [eventsOf_cons_event, eventsOf_append,
          eventsOf_attemptWithFallback, ih, List.range'_succ]

/-- C5: on every successful export the emitted progress-event stream is, in
order, one segment event per main-track clip with `current` equal to the
number of clips completed so far and `total = mainTrack.length + 2`,
followed by exactly one concat event and exactly one finalize event with
the same total; and in the segment phase each clip's progress event is the
first trace item of that clip's step, preceding its extraction attempt. -/
theorem C5_progress_events :
    (∀ env plan settings cache ts r,
        (spawn_export_job env plan settings cache ts).2 = .ok r →
        eventsOf (spawn_export_job env plan settings cache ts).1 =
          expectedEvents plan.main_track.length)
    ∧ (∀ env cache total clip rest idx,
        (segmentLoop env cache total (clip :: rest) idx).1.head? =
          some (.event ⟨"segment", idx, total, "Trimming clip " ++ toString idx⟩)) := by
  constructor
  · intro env plan settings cache ts r h
    simp only [spawn_export_job] at h ⊢
    cases hseg : (segmentLoop env cache (plan.main_track.length + 2)
        plan.main_track 0).2 with
    | error e => simp [hseg] at h
    | ok segment_paths =>
      simp only [hseg] at h ⊢
      cases hcw : env.createWrite (cache.concat_list_path plan)
          (manifestContent segment_paths) with
      | error e => simp [hcw] at h
      | ok u =>
        simp only [hcw] at h ⊢
        cases hfin : (attemptWithFallback env.run
            (concatArgs (cache.concat_list_path plan)
              (cache.render_output_path plan ts
                (if settings.format = "mov" then "mov" else "mp4")))
            (concatFallbackArgs (cache.concat_list_path plan)
              (cache.render_output_path plan ts
                (if settings.format = "mov" then "mov" else "mp4")))
            ("ffmpeg concat failed: ") ("ffmpeg encode failed: ")).2 with
        | error e => simp [hfin] at h
        | ok u2 =>
          simp only [hfin]
          have hsegev := segmentLoop_ok_events env cache
            (plan.main_track.length + 2) plan.main_track 0 segment_paths hseg
          simp [eventsOf_append, eventsOf_cons_event, eventsOf_cons_fileWrite,
            eventsOf_nil, eventsOf_attemptWithFallback, hsegev,
            expectedEvents, List.range_eq_range']
  · intro env cache total clip rest idx
    simp only [segmentLoop]
    cases hstep : (attemptWithFallback env.run
        (trimArgs clip (cache.segment_path idx))
        (trimFallbackArgs clip (cache.segment_path idx))
        ("ffmpeg trim failed: ") ("ffmpeg transcode failed: ")).2 with
    | error e => simp [hstep]
    | ok u => simp [hstep]

/-- Closed instantiation of `C5_progress_events` on a concrete successful
one-clip export. -/
theorem C5_witness :
    eventsOf (spawn_export_job okEnv witnessPlan settings0 cache0 7).1 =
      expectedEvents witnessPlan.main_track.length :=
  C5_progress_events.1 okEnv witnessPlan settings0 cache0 7
    ("file://" ++ cache0.render_output_path witnessPlan 7 "mp4", 1000, 42) rfl

theorem call_primary_mem_attemptWithFallback (run : List String → CmdOutcome)
    (p f : List String) (pm fm : String) :
    TraceItem.call p ∈ (attemptWithFallback run p f pm fm).1 := by
  cases hp : run p with
  | spawnErr e => simp [attemptWithFallback, hp]
  | exited s st =>
    cases s with
    | true => simp [attemptWithFallback, hp]
    | false =>
      cases hf : run f with
      | spawnErr e => simp [attemptWithFallback, hp, hf]
      | exited s2 st2 => cases s2 <;> simp [attemptWithFallback, hp, hf]

/-- C6: a plan with an empty main track skips the segment phase entirely
but still runs the concat phase (manifest write of the empty manifest, one
concat event) and the finalize phase (one finalize event and a real tool
invocation with `total = 2`); when both finalize attempts exit non-zero the
export surfaces the tool failure as an error value carrying the fallback's
stderr — an empty plan is never short-circuited into silent success
without invoking the tool. -/
theorem C6_empty_plan_still_runs_tool
    (env : ExportEnv) (plan : EditPlan) (settings : ExportSettings)
    (cache : CacheDirs) (ts : Nat)
    (hmt : plan.main_track = [])
    (hcw : env.createWrite (cache.concat_list_path plan)
      (manifestContent []) = .ok ()) :
    eventsOf (spawn_export_job env plan settings cache ts).1 =
      [⟨"concat", 0, 2, "Concatenating"⟩, ⟨"finalize", 1, 2, "Writing output"⟩]
    ∧ (TraceItem.call (concatArgs (cache.concat_list_path plan)
          (cache.render_output_path plan ts
            (if settings.format = "mov" then "mov" else "mp4")))
        ∈ (spawn_export_job env plan settings cache ts).1)
    ∧ (∀ s1 s2,
        env.run (concatArgs (cache.concat_list_path plan)
          (cache.render_output_path plan ts
            (if settings.format = "mov" then "mov" else "mp4"))) =
          .exited false s1 →
        env.run (concatFallbackArgs (cache.concat_list_path plan)
          (cache.render_output_path plan ts
            (if settings.format = "mov" then "mov" else "mp4"))) =
          .exited false s2 →
        (spawn_export_job env plan settings cache ts).2 =
          .error ("ffmpeg error: " ++ s2)) := by
  refine ⟨?_, ?_, ?_⟩
  · simp only [spawn_export_job, hmt, List.length_nil, segmentLoop, hcw]
    cases hfin : (attemptWithFallback env.run
        (concatArgs (cache.concat_list_path plan)
          (cache.render_output_path plan ts
            (if settings.format = "mov" then "mov" else "mp4")))
        (concatFallbackArgs (cache.concat_list_path plan)
          (cache.render_output_path plan ts
            (if settings.format = "mov" then "mov" else "mp4")))
        ("ffmpeg concat failed: ") ("ffmpeg encode failed: ")).2 with
    | error e =>
      simp [hfin, eventsOf_append, eventsOf_cons_event, eventsOf_cons_fileWrite,
        eventsOf_nil, eventsOf_attemptWithFallback]
    | ok u =>
      simp [hfin, eventsOf_append, eventsOf_cons_event, eventsOf_cons_fileWrite,
        eventsOf_nil, eventsOf_attemptWithFallback]
  · simp only [spawn_export_job, hmt, List.length_nil, segmentLoop, hcw]
    cases hfin : (attemptWithFallback env.run
        (concatArgs (cache.concat_list_path plan)
          (cache.render_output_path plan ts
            (if settings.format = "mov" then "mov" else "mp4")))
        (concatFallbackArgs (cache.concat_list_path plan)
          (cache.render_output_path plan ts
            (if settings.format = "mov" then "mov" else "mp4")))
        ("ffmpeg concat failed: ") ("ffmpeg encode failed: ")).2 with
    | error e =>
      have hm := call_primary_mem_attemptWithFallback env.run
        (concatArgs (cache.concat_list_path plan)
          (cache.render_output_path plan ts
            (if settings.format = "mov" then "mov" else "mp4")))
        (concatFallbackArgs (cache.concat_list_path plan)
          (cache.render_output_path plan ts
            (if settings.format = "mov" then "mov" else "mp4")))
        ("ffmpeg concat failed: ") ("ffmpeg encode failed: ")
      simp [hfin, hm]
    | ok u =>
      have hm := call_primary_mem_attemptWithFallback env.run
        (concatArgs (cache.concat_list_path plan)
          (cache.render_output_path plan ts
            (if settings.format = "mov" then "mov" else "mp4")))
        (concatFallbackArgs (cache.concat_list_path plan)
          (cache.render_output_path plan ts
            (if settings.format = "mov" then "mov" else "mp4")))
        ("ffmpeg concat failed: ") ("ffmpeg encode failed: ")
      simp [hfin, hm]
  · intro s1 s2 h1 h2
    simp [spawn_export_job, hmt, segmentLoop, hcw, attemptWithFallback, h1, h2]

/-- Closed instantiation of `C6_empty_plan_still_runs_tool` on a concrete
empty-main-track plan. -/
theorem C6_witness :
    eventsOf (spawn_export_job okEnv emptyPlan settings0 cache0 3).1 =
      [⟨"concat", 0, 2, "Concatenating"⟩, ⟨"finalize", 1, 2, "Writing output"⟩] :=
  (C6_empty_plan_still_runs_tool okEnv emptyPlan settings0 cache0 3 rfl rfl).1

theorem pci_ok_valid (assets : List (String × ProjectAsset))
    (clips : List (String × ProjectClip)) (role : String) :
    ∀ (l : List String) (main ov m o : List SeqClip),
      processClipIds assets clips role l main ov = .ok (m, o) →
      (∀ c ∈ main, c.in_ms < c.out_ms) → (∀ c ∈ ov, c.in_ms < c.out_ms) →
      (∀ c ∈ m, c.in_ms < c.out_ms) ∧ (∀ c ∈ o, c.in_ms < c.out_ms)
  | [], main, ov, m, o, h, hm, ho => by
    simp only [processClipIds, Except.ok.injEq, Prod.mk.injEq] at h
    obtain ⟨h1, h2⟩ := h
    subst h1
    subst h2
    exact ⟨hm, ho⟩
  | cid :: rest, main, ov, m, o, h, hm, ho => by
    simp only [processClipIds] at h
    cases hlc : clips.lookup cid with
    | none =>
      simp only [hlc] at h
      exact pci_ok_valid assets clips role rest main ov m o h hm ho
    | some clip =>
      simp only [hlc] at h
      cases hla : assets.lookup clip.asset_id with
      | none =>
        simp only [hla] at h
        exact pci_ok_valid assets clips role rest main ov m o h hm ho
      | some asset =>
        simp only [hla] at h
        by_cases hbad : clip.out_ms ≤ clip.in_ms
        · rw [if_pos hbad] at h
          exact absurd h (by simp)
        · rw [if_neg hbad] at h
          have hseq : clip.in_ms < clip.out_ms := Nat.lt_of_not_le hbad
          by_cases hrole : role = "main"
          · rw [if_pos hrole] at h
            refine pci_ok_valid assets clips role rest
              (main ++ [⟨normalizeSrc asset.src, clip.in_ms, clip.out_ms,
                clip.start_ms, clip.end_ms⟩]) ov m o h ?_ ho
            intro c hc
            rcases List.mem_append.mp hc with h1 | h1
            · exact hm c h1
            · simp only [List.mem_singleton] at h1
              subst h1
              exact hseq
          · rw [if_neg hrole] at h
            refine pci_ok_valid assets clips role rest main
              (ov ++ [⟨normalizeSrc asset.src, clip.in_ms, clip.out_ms,
                clip.start_ms, clip.end_ms⟩]) m o h hm ?_
            intro c hc
            rcases List.mem_append.mp hc with h1 | h1
            · exact ho c h1
            · simp only [List.mem_singleton] at h1
              subst h1
              exact hseq

theorem pt_ok_valid (assets : List (String × ProjectAsset))
    (clips : List (String × ProjectClip)) :
    ∀ (tracks : List (String × ProjectTrack)) (main ov m o : List SeqClip),
      processTracks assets clips tracks main ov = .ok (m, o) →
      (∀ c ∈ main, c.in_ms < c.out_ms) → (∀ c ∈ ov, c.in_ms < c.out_ms) →
      (∀ c ∈ m, c.in_ms < c.out_ms) ∧ (∀ c ∈ o, c.in_ms < c.out_ms)
  | [], main, ov, m, o, h, hm, ho => by
    simp only [processTracks, Except.ok.injEq, Prod.mk.injEq] at h
    obtain ⟨h1, h2⟩ := h
    subst h1
    subst h2
    exact ⟨hm, ho⟩
  | (tid, track) :: rest, main, ov, m, o, h, hm, ho => by
    simp only [processTracks] at h
    cases hpci : processClipIds assets clips track.role track.clip_order main ov with
    | error e => simp [hpci] at h
    | ok pr =>
      obtain ⟨m2, o2⟩ := pr
      simp only [hpci] at h
      have hstep := pci_ok_valid assets clips track.role track.clip_order
        main ov m2 o2 hpci hm ho
      exact pt_ok_valid assets clips rest m2 o2 m o h hstep.1 hstep.2

theorem pci_error_form (assets : List (String × ProjectAsset))
    (clips : List (String × ProjectClip)) (role : String) :
    ∀ (l : List String) (main ov : List SeqClip) (e : String),
      processClipIds assets clips role l main ov = .error e →
      ∃ cid clip, cid ∈ l ∧ clips.lookup cid = some clip ∧
        (assets.lookup clip.asset_id).isSome ∧ clip.out_ms ≤ clip.in_ms ∧
        e = "clip " ++ cid ++ " out <= in"
  | [], main, ov, e, h => by simp [processClipIds] at h
  | cid0 :: rest, main, ov, e, h => by
    simp only [processClipIds] at h
    cases hlc : clips.lookup cid0 with
    | none =>
      simp only [hlc] at h
      obtain ⟨c2, clip2, hmem, hx⟩ := pci_error_form assets clips role rest main ov e h
      exact ⟨c2, clip2, List.mem_cons_of_mem _ hmem, hx⟩
    | some clip =>
      simp only [hlc] at h
      cases hla : assets.lookup clip.asset_id with
      | none =>
        simp only [hla] at h
        obtain ⟨c2, clip2, hmem, hx⟩ := pci_error_form assets clips role rest main ov e h
        exact ⟨c2, clip2, List.mem_cons_of_mem _ hmem, hx⟩
      | some asset =>
        simp only [hla] at h
        by_cases hbad : clip.out_ms ≤ clip.in_ms
        · rw [if_pos hbad] at h
          have he : e = "clip " ++ cid0 ++ " out <= in" := by
            simp only [Except.error.injEq] at h
            exact h.symm
          exact ⟨cid0, clip, List.mem_cons_self _ _, hlc, by simp [hla], hbad, he⟩
        · rw [if_neg hbad] at h
          by_cases hrole : role = "main"
          · rw [if_pos hrole] at h
            obtain ⟨c2, clip2, hmem, hx⟩ :=
              pci_error_form assets clips role rest _ ov e h
            exact ⟨c2, clip2, List.mem_cons_of_mem _ hmem, hx⟩
          · rw [if_neg hrole] at h
            obtain ⟨c2, clip2, hmem, hx⟩ :=
              pci_error_form assets clips role rest main _ e h
            exact ⟨c2, clip2, List.mem_cons_of_mem _ hmem, hx⟩

theorem pci_bad_errors (assets : List (String × ProjectAsset))
    (clips : List (String × ProjectClip)) (role : String) :
    ∀ (l : List String) (main ov : List SeqClip) (cid : String)
      (clip : ProjectClip),
      cid ∈ l → clips.lookup cid = some clip →
      (assets.lookup clip.asset_id).isSome → clip.out_ms ≤ clip.in_ms →
      ∃ e, processClipIds assets clips role l main ov = .error e
  | [], _, _, _, _, hmem, _, _, _ => absurd hmem (List.not_mem_nil _)
  | cid0 :: rest, main, ov, cid, clip, hmem, hlc, hla, hbad => by
    cases hlc0 : clips.lookup cid0 with
    | none =>
      have hmem2 : cid ∈ rest := by
        rcases List.mem_cons.mp hmem with h1 | h1
        · subst h1
          rw [hlc0] at hlc
          cases hlc
        · exact h1
      obtain ⟨e, he⟩ :=
        pci_bad_errors assets clips role rest main ov cid clip hmem2 hlc hla hbad
      refine ⟨e, ?_⟩
      simp only [processClipIds, hlc0]
      exact he
    | some clip0 =>
      cases hla0 : assets.lookup clip0.asset_id with
      | none =>
        have hmem2 : cid ∈ rest := by
          rcases List.mem_cons.mp hmem with h1 | h1
          · subst h1
            rw [hlc0] at hlc
            injection hlc with hh
            subst hh
            rw [hla0] at hla
            simp at hla
          · exact h1
        obtain ⟨e, he⟩ :=
          pci_bad_errors assets clips role rest main ov cid clip hmem2 hlc hla hbad
        refine ⟨e, ?_⟩
        simp only [processClipIds, hlc0, hla0]
        exact he
      | some asset0 =>
        by_cases hbad0 : clip0.out_ms ≤ clip0.in_ms
        · refine ⟨"clip " ++ cid0 ++ " out <= in", ?_⟩
          simp only [processClipIds, hlc0, hla0]
          rw [if_pos hbad0]
        · have hmem2 : cid ∈ rest := by
            rcases List.mem_cons.mp hmem with h1 | h1
            · subst h1
              rw [hlc0] at hlc
              injection hlc with hh
              subst hh
              exact absurd hbad hbad0
            · exact h1
          by_cases hrole : role = "main"
          · obtain ⟨e, he⟩ := pci_bad_errors assets clips role rest
              (main ++ [⟨normalizeSrc asset0.src, clip0.in_ms, clip0.out_ms,
                clip0.start_ms, clip0.end_ms⟩]) ov cid clip hmem2 hlc hla hbad
            refine ⟨e, ?_⟩
            simp only [processClipIds, hlc0, hla0]
            rw [if_neg hbad0, if_pos hrole]
            exact he
          · obtain ⟨e, he⟩ := pci_bad_errors assets clips role rest main
              (ov ++ [⟨normalizeSrc asset0.src, clip0.in_ms, clip0.out_ms,
                clip0.start_ms, clip0.end_ms⟩]) cid clip hmem2 hlc hla hbad
            refine ⟨e, ?_⟩
            simp only [processClipIds, hlc0, hla0]
            rw [if_neg hbad0, if_neg hrole]
            exact he

theorem pt_error_form (assets : List (String × ProjectAsset))
    (clips : List (String × ProjectClip)) :
    ∀ (tracks : List (String × ProjectTrack)) (main ov : List SeqClip)
      (e : String),
      processTracks assets clips tracks main ov = .error e →
      ∃ cid clip, clips.lookup cid = some clip ∧
        (assets.lookup clip.asset_id).isSome ∧ clip.out_ms ≤ clip.in_ms ∧
        e = "clip " ++ cid ++ " out <= in"
  | [], main, ov, e, h => by simp [processTracks] at h
  | (tid, track) :: rest, main, ov, e, h => by
    simp only [processTracks] at h
    cases hpci : processClipIds assets clips track.role track.clip_order main ov with
    | error e2 =>
      simp only [hpci, Except.error.injEq] at h
      subst h
      obtain ⟨c2, clip2, _, hx⟩ :=
        pci_error_form assets clips track.role track.clip_order main ov e2 hpci
      exact ⟨c2, clip2, hx⟩
    | ok pr =>
      obtain ⟨m2, o2⟩ := pr
      simp only [hpci] at h
      exact pt_error_form assets clips rest m2 o2 e h

theorem pt_bad_errors (assets : List (String × ProjectAsset))
    (clips : List (String × ProjectClip)) :
    ∀ (tracks : List (String × ProjectTrack)) (main ov : List SeqClip)
      (tid : String) (track : ProjectTrack) (cid : String) (clip : ProjectClip),
      (tid, track) ∈ tracks → cid ∈ track.clip_order →
      clips.lookup cid = some clip →
      (assets.lookup clip.asset_id).isSome → clip.out_ms ≤ clip.in_ms →
      ∃ e, processTracks assets clips tracks main ov = .error e
  | [], _, _, _, _, _, _, hmem, _, _, _, _ => absurd hmem (List.not_mem_nil _)
  | (tid0, tr0) :: rest, main, ov, tid, track, cid, clip,
      hmem, hord, hlc, hla, hbad => by
    simp only [processTracks]
    cases hpci : processClipIds assets clips tr0.role tr0.clip_order main ov with
    | error e => exact ⟨e, rfl⟩
    | ok pr =>
      obtain ⟨m2, o2⟩ := pr
      rcases List.mem_cons.mp hmem with h1 | h1
      · have htr : track = tr0 := (Prod.mk.injEq _ _ _ _ ▸ h1).2
        subst htr
        obtain ⟨e, he⟩ := pci_bad_errors assets clips track.role track.clip_order
          main ov cid clip hord hlc hla hbad
        rw [hpci] at he
        cases he
      · exact pt_bad_errors assets clips rest m2 o2 tid track cid clip h1 hord hlc hla hbad

/-- Description with a single clip whose trim window is invalid and whose
asset reference resolves, referenced by a main track. -/
def badResolvableDesc : ProjectJson :=
  ⟨"p3", [("a1", ⟨"a1", "video", "A", "/a.mp4"⟩)], [("c1", badClip)],
   [("t1", ⟨"t1", "main", ["c1"]⟩)]⟩

/-- C3 (amended): every clip of a successfully built plan has
`out_ms > in_ms`; and for every description in which some track's
`clip_order` references a clip that is present in the clips map, whose
asset reference resolves, and whose trim window has `out_ms <= in_ms`,
`build_plan` fails with an error message naming the identifier of such a
clip (in particular the offending clip's own identifier when it is the
only one). -/
theorem C3_trim_validation :
    (∀ p plan, build_plan p = .ok plan →
        (∀ c ∈ plan.main_track, c.in_ms < c.out_ms) ∧
        (∀ c ∈ plan.overlay_track, c.in_ms < c.out_ms))
    ∧ (∀ p tid track cid clip,
        (tid, track) ∈ p.tracks → cid ∈ track.clip_order →
        p.clips.lookup cid = some clip →
        (p.assets.lookup clip.asset_id).isSome →
        clip.out_ms ≤ clip.in_ms →
        ∃ cid2 clip2, p.clips.lookup cid2 = some clip2 ∧
          (p.assets.lookup clip2.asset_id).isSome ∧
          clip2.out_ms ≤ clip2.in_ms ∧
          build_plan p = .error ("clip " ++ cid2 ++ " out <= in")) := by
  constructor
  · intro p plan h
    simp only [build_plan] at h
    split at h
    · exact absurd h (by simp)
    · rename_i main overlay heq
      split at h
      · have hplan : plan = ⟨p.id, sortClips main, overlay⟩ := by
          injection h with h2
          exact h2.symm
        subst hplan
        have hv := pt_ok_valid p.assets p.clips p.tracks [] [] main overlay heq
          (by intro c hc; cases hc) (by intro c hc; cases hc)
        exact ⟨fun c hc => hv.1 c (mem_sortClips hc), fun c hc => hv.2 c hc⟩
      · exact absurd h (by simp)
  · intro p tid track cid clip hmem hord hlc hla hbad
    obtain ⟨e, he⟩ := pt_bad_errors p.assets p.clips p.tracks [] []
      tid track cid clip hmem hord hlc hla hbad
    obtain ⟨cid2, clip2, hlc2, hla2, hbad2, hform⟩ :=
      pt_error_form p.assets p.clips p.tracks [] [] e he
    refine ⟨cid2, clip2, hlc2, hla2, hbad2, ?_⟩
    rw [← hform]
    simp [build_plan, he]

/-- Counterexample to C3 as stated: `badTrimDesc` contains a clip whose
trim window has `out_ms <= in_ms`, yet `build_plan` succeeds, because the
offending clip is never referenced through a track's `clip_order` and so
undergoes no validation. -/
theorem C3_counterexample :
    badTrimDesc.clips = [("c1", badClip)] ∧ badClip.out_ms ≤ badClip.in_ms ∧
    build_plan badTrimDesc = .ok ⟨"p2", [], []⟩ :=
  ⟨rfl, by decide, rfl⟩

/-- Closed instantiation of the failure branch of `C3_trim_validation` on a
concrete description whose only referenced clip resolves and has an invalid
trim window. -/
theorem C3_witness :
    build_plan badResolvableDesc = .error ("clip " ++ "c1" ++ " out <= in") := by
  obtain ⟨cid2, clip2, h1, h2, h3, h4⟩ :=
    C3_trim_validation.2 badResolvableDesc "t1" ⟨"t1", "main", ["c1"]⟩ "c1" badClip
      (by simp [badResolvableDesc]) (by simp) rfl rfl (by decide)
  have hc : cid2 = "c1" := by
    by_cases hne : cid2 = "c1"
    · exact hne
    · have hbeq : (cid2 == "c1") = false := beq_eq_false_iff_ne.mpr hne
      simp [badResolvableDesc, List.lookup, hbeq] at h1
  subst hc
  exact h4

/-- C9: a clip identifier in a track's `clip_order` that is absent from the
clips map is silently skipped, as is a clip whose `asset_id` is absent from
the assets map — no error is raised and no trim-window validation runs for
them; consequently a description whose only `out_ms <= in_ms` clip
references a missing asset builds successfully into an empty plan. -/
theorem C9_unresolvable_refs_skipped :
    (∀ assets clips role cid rest main ov,
        clips.lookup cid = none →
        processClipIds assets clips role (cid :: rest) main ov =
          processClipIds assets clips role rest main ov)
    ∧ (∀ assets clips role cid clip rest main ov,
        clips.lookup cid = some clip →
        assets.lookup clip.asset_id = none →
        processClipIds assets clips role (cid :: rest) main ov =
          processClipIds assets clips role rest main ov)
    ∧ (badAssetClip.out_ms ≤ badAssetClip.in_ms
       ∧ danglingAssetDesc.assets.lookup badAssetClip.asset_id = none
       ∧ danglingAssetDesc.clips = [("c9", badAssetClip)]
       ∧ danglingAssetDesc.tracks = [("t9", ⟨"t9", "main", ["c9"]⟩)]
       ∧ build_plan danglingAssetDesc = .ok ⟨"p9", [], []⟩) := by
  refine ⟨?_, ?_, by decide, rfl, rfl, rfl, rfl⟩
  · intro assets clips role cid rest main ov h
    simp [processClipIds, h]
  · intro assets clips role cid clip rest main ov h1 h2
    simp [processClipIds, h1, h2]

/-- Closed instantiation of the skip branch of
`C9_unresolvable_refs_skipped`. -/
theorem C9_witness :
    processClipIds [] [] "main" ["cX"] [] [] =
      processClipIds [] [] "main" [] [] [] :=
  C9_unresolvable_refs_skipped.1 [] [] "main" "cX" [] [] [] rfl
